import Mathlib

/-!
# Verification of the order-management backend (`src/app.py`)

Shallow embedding of the design-catalog write handlers (`add_design`,
`update_design`, `save_design`), the order write handler (`save_order`)
and the order read/aggregation handler (`get_orders`) of `app.py`,
together with proofs settling the specification's claims about them.

Modelling conventions:
* SQLite REAL / Python float amounts are modelled as `ℚ`; the handlers
  only copy, add and multiply such values, so no floating-point rounding
  behaviour is relevant to the claims.
* A JSON request body is modelled as a structure whose fields are the
  keys the handler reads via `data.get(...)`; `Option` marks a key that
  may be absent.  JSON `null` values for numeric fields are modelled by
  `JVal.null` (where the handler's `float(...)`/`int(...)` coercion would
  raise); string-typed keys are modelled as present-with-a-string or
  absent.  A JSON body may also carry keys the handler never reads
  (e.g. `width`/`height`/`price` snapshots); these appear as fields that
  no handler consults.
* The database tables are modelled as lists of row structures; an SQL
  INSERT appends, an UPDATE maps over the rows.
-/

/-- Python truthiness of an optional string: `None` and `""` are falsy
(`if not name: ...`). -/
def pyFalsyStr : Option String → Bool
  | none => true
  | some s => s = ""

/-- Python truthiness of an optional number: `None` and `0` are falsy
(`if not price: ...`). -/
def pyFalsyNum : Option ℚ → Bool
  | none => true
  | some q => q = 0

/-- A JSON value in a numeric position: a number, or `null`.
`float(None)` / `int(None)` raise in Python, which the handlers catch. -/
inductive JVal where
  | num (q : ℚ)
  | null
deriving DecidableEq, Repr

/-- Python `float(x)` on a JSON numeric value: identity on numbers,
raises (`none`) on `null`. -/
def pyFloat : JVal → Option ℚ
  | .num q => some q
  | .null => none

/-- Python `int(x)` on a JSON numeric value: truncation toward zero on
numbers, raises (`none`) on `null`. -/
def pyInt : JVal → Option ℤ
  | .num q => some (if 0 ≤ q then ⌊q⌋ else ⌈q⌉)
  | .null => none

/-- Python `x or d` for an optional number (SQL NULL or falsy `0` both
fall back to the default). -/
def pyOrQ (x : Option ℚ) (d : ℚ) : ℚ :=
  match x with
  | none => d
  | some v => if v = 0 then d else v

/-- Python `x or d` for an optional integer. -/
def pyOrZ (x : Option ℤ) (d : ℤ) : ℤ :=
  match x with
  | none => d
  | some v => if v = 0 then d else v

/-- Python `x or d` for an optional string (SQL NULL or `""` fall back
to the default). -/
def pyOrS (x : Option String) (d : String) : String :=
  match x with
  | none => d
  | some v => if v = "" then d else v

/-- One image record inside the `images` array of a design request. -/
structure ImageReq where
  image_data : Option String
  image_type : Option String
deriving DecidableEq, Repr, Inhabited

/-- A stored row of the `designs` table, as created by the write
handlers (`INSERT INTO designs (name, price, tags, description,
image_data, image_type)`). -/
structure DesignRow where
  id : ℕ
  name : String
  price : ℚ
  tags : String
  description : String
  image_data : Option String
  image_type : Option String
deriving DecidableEq, Repr

/-- The JSON body of `POST /admin/designs` (`add_design`).  The handler
reads `name`, `price`, `tags`, `description`, `images`.  `width` and
`height` are carried to model request bodies that supply them — no line
of `add_design` reads them. -/
structure AddDesignReq where
  name : Option String
  price : Option ℚ
  tags : Option String
  description : Option String
  images : List ImageReq
  width : Option ℤ
  height : Option ℤ
deriving DecidableEq, Repr

/-- A JSON handler response (status code, `success` flag, `message`,
and the `design_id` field when present). -/
structure DResponse where
  status : ℕ
  success : Bool
  message : String
  design_id : Option ℕ
deriving DecidableEq, Repr

/-- Handler `add_design` (`app.py` 1654–1697): validates truthiness of `name`
and `price`, requires a non-empty `images` list, then inserts one row
with the client-supplied `price` (`float(price)`), taking only the
first image and defaulting its type to `"image/jpeg"`.  `newId` stands
for the row id the database assigns (`cur.lastrowid`). -/
def add_design (req : AddDesignReq) (store : List DesignRow) (newId : ℕ) :
    DResponse × List DesignRow :=
  if pyFalsyStr req.name || pyFalsyNum req.price then
    (⟨400, false, "Name and price are required", none⟩, store)
  else if req.images = [] then
    (⟨400, false, "At least one image is required", none⟩, store)
  else
    let img := req.images.headI
    let row : DesignRow :=
      { id := newId
        name := req.name.getD ""
        price := req.price.getD 0
        tags := req.tags.getD ""
        description := req.description.getD ""
        image_data := img.image_data
        image_type := some (img.image_type.getD "image/jpeg") }
    (⟨200, true, "Design added successfully", some newId⟩, store ++ [row])

/-- The JSON body of `PUT /admin/designs/<id>` (`update_design`). -/
structure UpdateDesignReq where
  name : Option String
  price : Option ℚ
  tags : Option String
  description : Option String
  images : List ImageReq
  width : Option ℤ
  height : Option ℤ
deriving DecidableEq, Repr

/-- The field update `update_design` applies to the matching row:
each of `name`/`price`/`tags`/`description` is updated exactly when it
is not `None` in the request (`if name is not None: ...`), and the image
columns are overwritten from the first supplied image exactly when the
`images` list is non-empty (`if images: ...`). -/
def applyDesignUpdate (req : UpdateDesignReq) (row : DesignRow) : DesignRow :=
  let row' :=
    { row with
      name := req.name.getD row.name
      price := req.price.getD row.price
      tags := req.tags.getD row.tags
      description := req.description.getD row.description }
  match req.images with
  | [] => row'
  | img :: _ =>
    { row' with image_data := img.image_data, image_type := img.image_type }

/-- Handler `update_design` (`app.py` 1700–1760): 404 when no row has the given
id, otherwise applies `applyDesignUpdate` to the rows matching the id
(`UPDATE designs SET ... WHERE id=?`). -/
def update_design (design_id : ℕ) (req : UpdateDesignReq)
    (store : List DesignRow) : DResponse × List DesignRow :=
  if store.all (fun r => r.id ≠ design_id) then
    (⟨404, false, "Design not found", none⟩, store)
  else
    (⟨200, true, "Design updated successfully", none⟩,
     store.map (fun r => if r.id = design_id then applyDesignUpdate req r else r))

/-- The JSON body of `POST /admin/save-design` (`save_design`): `id`
absent (or falsy `0`) means insert, otherwise update.
`delete_all_previews` drives a side effect on the separate
`design_previews` table, which is outside the modelled state. -/
structure SaveDesignReq where
  id : Option ℕ
  name : Option String
  price : Option ℚ
  description : Option String
  tags : Option String
  images : List ImageReq
  delete_all_previews : Bool
  width : Option ℤ
  height : Option ℤ
deriving DecidableEq, Repr

/-- First image of a `save_design` request, as the handler extracts it
(`image_data`/`image_type` stay `None` when the list is empty). -/
def firstImageData (images : List ImageReq) : Option String × Option String :=
  match images with
  | [] => (none, none)
  | img :: _ => (img.image_data, img.image_type)

/-- Handler `save_design` (`app.py` 1763–1826): rejects falsy
`name`/`price`/`description`; with a truthy `id` updates the matching
row — overwriting the image columns only when both `image_data` and
`image_type` of the first image are truthy — and with no (or falsy) `id`
inserts a new row carrying the first image's data verbatim.  The
client-supplied `price` is stored as-is in both branches. -/
def save_design (req : SaveDesignReq) (store : List DesignRow) (newId : ℕ) :
    DResponse × List DesignRow :=
  if pyFalsyStr req.name || pyFalsyNum req.price || pyFalsyStr req.description then
    (⟨400, false, "Missing required fields", none⟩, store)
  else
    let idata := (firstImageData req.images).1
    let itype := (firstImageData req.images).2
    match req.id with
    | some i =>
      if i ≠ 0 then
        let upd : DesignRow → DesignRow := fun r =>
          if r.id = i then
            if ¬ pyFalsyStr idata ∧ ¬ pyFalsyStr itype then
              { r with
                name := req.name.getD ""
                price := req.price.getD 0
                tags := req.tags.getD ""
                description := req.description.getD ""
                image_data := idata
                image_type := itype }
            else
              { r with
                name := req.name.getD ""
                price := req.price.getD 0
                tags := req.tags.getD ""
                description := req.description.getD "" }
          else r
        (⟨200, true, "Design updated successfully", some i⟩, store.map upd)
      else
        (⟨200, true, "Design saved successfully", some newId⟩,
         store ++ [{ id := newId
                     name := req.name.getD ""
                     price := req.price.getD 0
                     tags := req.tags.getD ""
                     description := req.description.getD ""
                     image_data := idata
                     image_type := itype }])
    | none =>
      (⟨200, true, "Design saved successfully", some newId⟩,
       store ++ [{ id := newId
                   name := req.name.getD ""
                   price := req.price.getD 0
                   tags := req.tags.getD ""
                   description := req.description.getD ""
                   image_data := idata
                   image_type := itype }])

/-- One element of the `items` array of a `POST /saveOrder` body.
Numeric fields are `JVal` (the handler converts them via
`float`/`int` inside a per-item `try`); an absent key takes the
`item.get(...)` default. -/
structure ReqItem where
  name : Option String
  price : Option JVal
  quantity : Option JVal
  image : Option String
  placement_position : Option String
  design_side : Option String
  design_width : Option JVal
  design_height : Option JVal
  custom_requirements : Option String
deriving DecidableEq, Repr

/-- The JSON body of `POST /saveOrder`.  `subtotal`, `tax` and `total`
model keys a checkout client sends; no line of `save_order` reads
them. -/
structure OrderReq where
  username : Option String
  items : List ReqItem
  subtotal : Option ℚ
  tax : Option ℚ
  total : Option ℚ
deriving DecidableEq, Repr

/-- A stored row of the `orders` table, with the columns `save_order`
inserts (the autoincrement `id` and `created_at` are assigned by the
store and not modelled on the write side). -/
structure OrderRow where
  order_id : String
  username : String
  design_name : String
  price : ℚ
  quantity : ℤ
  image_url : String
  placement_position : String
  design_side : String
  design_width : ℤ
  design_height : ℤ
  custom_requirements : String
  order_date : String
  status : String
deriving DecidableEq, Repr

/-- A `save_order` response (`success`, `message`, HTTP status, and the
`order_id` field when present). -/
structure OResponse where
  status : ℕ
  success : Bool
  message : String
  order_id : Option String
deriving DecidableEq, Repr

/-- The per-item body of `save_order`'s loop (`app.py` 976–1016): field
extraction with defaults and `float`/`int` conversion.  Any raising
conversion makes the whole item fail (`except ... continue`), so a
failed item inserts nothing. -/
def processItem (oid username odate : String) (item : ReqItem) :
    Option OrderRow := do
  let price ← pyFloat (item.price.getD (.num 0))
  let qty ← pyInt (item.quantity.getD (.num 1))
  let w ← pyInt (item.design_width.getD (.num 0))
  let h ← pyInt (item.design_height.getD (.num 0))
  pure
    { order_id := oid
      username := username
      design_name := item.name.getD "Unknown Design"
      price := price
      quantity := qty
      image_url := item.image.getD ""
      placement_position := item.placement_position.getD ""
      design_side := item.design_side.getD "front"
      design_width := w
      design_height := h
      custom_requirements := item.custom_requirements.getD ""
      order_date := odate
      status := "Pending" }

/-- Handler `save_order` (`app.py` 922–1041): validates the username and a
non-empty item list, then inserts one row per convertible item, all
stamped with the one generated order id `oid`, the one timestamp
`odate`, and status `"Pending"`.  Items whose conversion raises are
skipped; the call succeeds iff at least one row was inserted.  `oid`
and `odate` stand for the handler's `f"ORD{int(time.time())}{...}"`
and `datetime.now()` values, generated once per call. -/
def save_order (req : OrderReq) (oid odate : String)
    (store : List OrderRow) : OResponse × List OrderRow :=
  if pyFalsyStr req.username then
    (⟨400, false, "Username is required", none⟩, store)
  else if req.items = [] then
    (⟨400, false, "No items in order", none⟩, store)
  else
    let u := req.username.getD ""
    let newRows := req.items.filterMap (processItem oid u odate)
    if newRows.length > 0 then
      (⟨200, true, "Order saved", some oid⟩, store ++ newRows)
    else
      (⟨500, false, "Failed to save any items", none⟩, store)

/-- Which optional columns the live `orders` table has
(`PRAGMA table_info(orders)` in `get_orders`; the base columns `id`,
`design_name`, `price`, `quantity`, `image_url`, `order_date`, `status`
always exist). -/
structure Schema where
  placement_position : Bool
  design_side : Bool
  design_width : Bool
  design_height : Bool
  custom_requirements : Bool
  order_id : Bool
deriving DecidableEq, Repr

/-- A stored row of the `orders` table as `get_orders` reads it: every
column is nullable except the autoincrement `id`.  When the schema
lacks an optional column the corresponding field is simply never read
by the handler. -/
structure StoredRow where
  id : ℕ
  username : String
  design_name : Option String
  price : Option ℚ
  quantity : Option ℤ
  image_url : Option String
  order_date : Option String
  status : Option String
  placement_position : Option String
  design_side : Option String
  design_width : Option ℤ
  design_height : Option ℤ
  custom_requirements : Option String
  order_id : Option String
deriving DecidableEq, Repr

/-- The `order_id` key of an emitted order: the stored TEXT `order_id`
(possibly NULL) in the grouped branch, the row's own INTEGER `id` in
the branch for a table without an `order_id` column. -/
inductive OrderKey where
  | oid (s : Option String)
  | rowid (n : ℕ)
deriving DecidableEq, Repr

/-- One emitted item record.  The five customization fields are
`Option (Option _)`: the outer `none` means the key is absent from the
JSON object (grouped branch with the column missing), the inner value
is the emitted JSON value (`some none` = JSON `null`, possible only in
the ungrouped branch, which does not `or`-coalesce). -/
structure EItem where
  name : String
  price : ℚ
  quantity : ℤ
  image : String
  placement_position : Option (Option String)
  design_side : Option (Option String)
  design_width : Option (Option ℤ)
  design_height : Option (Option ℤ)
  custom_requirements : Option (Option String)
deriving DecidableEq, Repr

/-- One emitted logical order. -/
structure OrderGroup where
  order_id : OrderKey
  date : Option String
  status : Option String
  items : List EItem
  total : ℚ
deriving DecidableEq, Repr

/-- Contribution of one row to the running group total: the handler
adds up the values of the Python expression
`(row['price'] or 0) * (row['quantity'] or 1)`. -/
def itemTotal (r : StoredRow) : ℚ :=
  pyOrQ r.price 0 * (pyOrZ r.quantity 1 : ℚ)

/-- Item projection of the grouped branch (`app.py` 1201–1218):
base fields `or`-coalesced, customization keys present only when their
column exists, each `or`-coalesced to its default. -/
def mkItemG (sch : Schema) (r : StoredRow) : EItem :=
  { name := pyOrS r.design_name "Unknown Design"
    price := pyOrQ r.price 0
    quantity := pyOrZ r.quantity 1
    image := pyOrS r.image_url "https://via.placeholder.com/80?text=No+Image"
    placement_position :=
      if sch.placement_position then some (some (pyOrS r.placement_position "")) else none
    design_side :=
      if sch.design_side then some (some (pyOrS r.design_side "front")) else none
    design_width :=
      if sch.design_width then some (some (pyOrZ r.design_width 0)) else none
    design_height :=
      if sch.design_height then some (some (pyOrZ r.design_height 0)) else none
    custom_requirements :=
      if sch.custom_requirements then some (some (pyOrS r.custom_requirements "")) else none }

/-- Item projection of the ungrouped branch (`app.py` 1231–1241):
customization keys always present, carrying the raw (possibly NULL)
column value when the column exists and the default otherwise. -/
def mkItemU (sch : Schema) (r : StoredRow) : EItem :=
  { name := pyOrS r.design_name "Unknown Design"
    price := pyOrQ r.price 0
    quantity := pyOrZ r.quantity 1
    image := pyOrS r.image_url "https://via.placeholder.com/80?text=No+Image"
    placement_position :=
      some (if sch.placement_position then r.placement_position else some "")
    design_side :=
      some (if sch.design_side then r.design_side else some "front")
    design_width :=
      some (if sch.design_width then r.design_width else some 0)
    design_height :=
      some (if sch.design_height then r.design_height else some 0)
    custom_requirements :=
      some (if sch.custom_requirements then r.custom_requirements else some "") }

/-- One iteration of the grouped branch's loop (`app.py` 1185–1220):
create the group for the row's `order_id` key if absent (insertion
order, appended at the end), then add the row's item total and item
record to that group. -/
def addRow (sch : Schema) (gs : List OrderGroup) (r : StoredRow) :
    List OrderGroup :=
  let key : OrderKey := .oid r.order_id
  let gs' :=
    if gs.any (fun g => g.order_id == key) then gs
    else gs ++ [{ order_id := key, date := r.order_date, status := r.status,
                  items := [], total := 0 }]
  gs'.map (fun g =>
    if g.order_id == key then
      { g with total := g.total + itemTotal r,
               items := g.items ++ [mkItemG sch r] }
    else g)

/-- The grouped branch: fold the rows (in fetched order) through
`addRow` starting from the empty dict; `list(order_groups.values())`
is the insertion-ordered group list. -/
def aggregateGrouped (sch : Schema) (rows : List StoredRow) :
    List OrderGroup :=
  rows.foldl (addRow sch) []

/-- The ungrouped branch (`app.py` 1225–1243): each row becomes its own
singleton order, keyed by the row's own `id`. -/
def singleOrder (sch : Schema) (r : StoredRow) : OrderGroup :=
  { order_id := .rowid r.id
    date := r.order_date
    status := r.status
    items := [mkItemU sch r]
    total := itemTotal r }

/-- Insert a row into a list already ordered by the comparator. -/
def insertOrdered (le : StoredRow → StoredRow → Bool) (r : StoredRow) :
    List StoredRow → List StoredRow
  | [] => [r]
  | x :: xs => if le r x then r :: x :: xs else x :: insertOrdered le r xs

/-- Comparator for `ORDER BY order_date DESC`: dates descending, SQL NULLs
last (SQLite sorts NULLs first ascending).  The aggregation claims
proved below hold for every permutation of the fetched rows, so the
exact collation is immaterial to them. -/
def dateDescBefore (a b : StoredRow) : Bool :=
  match a.order_date, b.order_date with
  | none, none => true
  | none, some _ => false
  | some _, none => true
  | some x, some y => y ≤ x

/-- Insertion sort implementing the query's `ORDER BY order_date DESC`. -/
def sortRows (rows : List StoredRow) : List StoredRow :=
  rows.foldr (insertOrdered dateDescBefore) []

/-- Handler `get_orders` (`app.py` 1133–1248): fetch the user's rows sorted by
date descending, then either group them by the stored `order_id`
(when that column exists) or emit one singleton order per row. -/
def get_orders (sch : Schema) (username : String)
    (store : List StoredRow) : List OrderGroup :=
  let rows := sortRows (store.filter (fun r => r.username == username))
  if sch.order_id then aggregateGrouped sch rows
  else rows.map (singleOrder sch)

/-- Two-decimal rounding as the specification's `round(x, 2)`. -/
def round2 (q : ℚ) : ℚ := (round (q * 100) : ℤ) / 100

/-- The grouping key of a stored row in the grouped branch. -/
def keyOf (r : StoredRow) : OrderKey := .oid r.order_id

/-- The rows of one group: the fetched rows whose stored `order_id`
matches the group key. -/
def groupRows (k : OrderKey) (rows : List StoredRow) : List StoredRow :=
  rows.filter (fun r => keyOf r == k)

/-- Invariant of the grouped branch's loop: after consuming `processed`,
the accumulated groups have pairwise-distinct keys, each group's items
and running total are exactly the projections and the sum over its
rows among `processed`, and every consumed row has a group. -/
structure GroupsSpec (sch : Schema) (processed : List StoredRow)
    (gs : List OrderGroup) : Prop where
  nodupKeys : gs.Pairwise (fun a b => a.order_id ≠ b.order_id)
  items_eq : ∀ g ∈ gs, g.items = (groupRows g.order_id processed).map (mkItemG sch)
  total_eq : ∀ g ∈ gs, g.total = ((groupRows g.order_id processed).map itemTotal).sum
  covered : ∀ r ∈ processed, ∃ g ∈ gs, g.order_id = keyOf r

/-- The map `addRow` applies to every accumulated group: add the row's
contribution to the group carrying the row's key, leave the rest. -/
def updGroup (sch : Schema) (r : StoredRow) (g : OrderGroup) : OrderGroup :=
  if g.order_id == keyOf r then
    { g with total := g.total + itemTotal r,
             items := g.items ++ [mkItemG sch r] }
  else g

/-- The freshly created group for a not-yet-seen key. -/
def newGroup (r : StoredRow) : OrderGroup :=
  { order_id := keyOf r, date := r.order_date, status := r.status,
    items := [], total := 0 }

/-- The row list `get_orders` aggregates: the user's rows, sorted. -/
def fetchedRows (username : String) (store : List StoredRow) :
    List StoredRow :=
  sortRows (store.filter (fun r => r.username == username))

/-- A complete image record. -/
def cexImage : ImageReq := ⟨some "data", some "image/png"⟩

/-- A create-design request that also supplies `width`/`height` keys
(ignored by the handler) and a price of 7. -/
def cexAdd7 : AddDesignReq :=
  { name := some "Logo", price := some 7, tags := none,
    description := some "desc", images := [cexImage],
    width := some 3, height := some 4 }

/-- A create-design request with width 0 and negative height, otherwise
valid. -/
def cexAdd0 : AddDesignReq :=
  { name := some "X", price := some 5, tags := none,
    description := some "d", images := [cexImage],
    width := some 0, height := some (-2) }

/-- An update via `save_design` for design id 5, price 42, no image. -/
def cexSaveUpd : SaveDesignReq :=
  { id := some 5, name := some "N", price := some 42,
    description := some "d", tags := some "t", images := [],
    delete_all_previews := false, width := none, height := none }

/-- A stored design row with id 5. -/
def cexRow5 : DesignRow :=
  { id := 5, name := "Old", price := 1, tags := "", description := "o",
    image_data := some "olddata", image_type := some "image/png" }

/-- An update request without an image. -/
def cexUpdE : UpdateDesignReq :=
  { name := some "NewName", price := some 3, tags := none,
    description := none, images := [], width := none, height := none }

/-- The same update request with one image. -/
def cexUpdI : UpdateDesignReq := { cexUpdE with images := [cexImage] }

/-- Fixture `cexSaveUpd` with one image. -/
def cexSaveUpdI : SaveDesignReq := { cexSaveUpd with images := [cexImage] }

/-- An order request with no username. -/
def cexReqNoUser : OrderReq :=
  { username := none, items := [], subtotal := none, tax := none,
    total := none }

/-- A convertible order item ("Logo Design", price 1000, quantity 2). -/
def cexItemGood : ReqItem :=
  { name := some "Logo Design", price := some (.num 1000),
    quantity := some (.num 2), image := none, placement_position := none,
    design_side := none, design_width := none, design_height := none,
    custom_requirements := none }

/-- An item whose price is JSON `null`: `float(None)` raises, the item
is skipped. -/
def cexItemBad : ReqItem :=
  { name := some "Broken", price := some .null, quantity := some (.num 1),
    image := none, placement_position := none, design_side := none,
    design_width := none, design_height := none,
    custom_requirements := none }

/-- A two-item order request for alice in which the second item cannot
be converted, with order-level totals attached. -/
def cexReqMixed : OrderReq :=
  { username := some "alice", items := [cexItemGood, cexItemBad],
    subtotal := some 2000, tax := some 360, total := some 2360 }

/-- The row `cexItemGood` converts to under order id `ORD1`. -/
def cexRowGood : OrderRow :=
  { order_id := "ORD1", username := "alice", design_name := "Logo Design",
    price := 1000, quantity := 2, image_url := "",
    placement_position := "", design_side := "front", design_width := 0,
    design_height := 0, custom_requirements := "",
    order_date := "2024-01-01 10:00:00", status := "Pending" }

/-- A valid single-item order request carrying order-level totals. -/
def cexReqGood : OrderReq :=
  { username := some "alice", items := [cexItemGood],
    subtotal := some 2000, tax := some 360, total := some 2360 }

/-- The schema with every optional column present. -/
def schAll : Schema := ⟨true, true, true, true, true, true⟩

/-- The schema of a table that predates the `order_id` column. -/
def schNoOid : Schema := ⟨true, true, true, true, true, false⟩

/-- A stored order line for alice: "Logo Design", price 1000,
quantity 2, order id "ORD1". -/
def rowLogo : StoredRow :=
  { id := 1, username := "alice", design_name := some "Logo Design",
    price := some 1000, quantity := some 2, image_url := some "img",
    order_date := some "2024-01-01 10:00:00", status := some "Ordered",
    placement_position := some "", design_side := some "front",
    design_width := some 0, design_height := some 0,
    custom_requirements := some "", order_id := some "ORD1" }

/-- A second line of the same order "ORD1". -/
def rowTee : StoredRow :=
  { rowLogo with id := 2, design_name := some "Tee" }

/-- A line of a different order "ORD2". -/
def rowOther : StoredRow :=
  { rowLogo with id := 3, order_id := some "ORD2" }

/-- A line whose price is 1/8 (a value two-decimal rounding would
change), quantity 1. -/
def rowEighth : StoredRow :=
  { rowLogo with id := 4, price := some (1/8), quantity := some 1 }

/-- A line with price 100, quantity 1. -/
def rowHundred : StoredRow :=
  { rowLogo with id := 5, price := some 100, quantity := some 1 }

/-! ## Theorems -/

theorem groupRows_append (k : OrderKey) (p q : List StoredRow) :
    groupRows k (p ++ q) = groupRows k p ++ groupRows k q :=
  List.filter_append _ _

theorem groupRows_singleton_self (r : StoredRow) :
    groupRows (keyOf r) [r] = [r] := by
  simp [groupRows]

theorem groupRows_singleton_ne (k : OrderKey) (r : StoredRow)
    (h : keyOf r ≠ k) : groupRows k [r] = [] := by
  simp [groupRows, h]

theorem groupRows_append_self (p : List StoredRow) (r : StoredRow) :
    groupRows (keyOf r) (p ++ [r]) = groupRows (keyOf r) p ++ [r] := by
  rw [groupRows_append, groupRows_singleton_self]

theorem groupRows_append_ne (k : OrderKey) (p : List StoredRow)
    (r : StoredRow) (h : keyOf r ≠ k) :
    groupRows k (p ++ [r]) = groupRows k p := by
  rw [groupRows_append, groupRows_singleton_ne k r h, List.append_nil]

theorem addRow_eq (sch : Schema) (gs : List OrderGroup) (r : StoredRow) :
    addRow sch gs r =
      (if gs.any (fun g => g.order_id == keyOf r) then gs
       else gs ++ [newGroup r]).map (updGroup sch r) := rfl

theorem updGroup_key (sch : Schema) (r : StoredRow) (g : OrderGroup) :
    (updGroup sch r g).order_id = g.order_id := by
  unfold updGroup; by_cases h : g.order_id == keyOf r <;> simp [h]

theorem updGroup_of_ne (sch : Schema) (r : StoredRow) (g : OrderGroup)
    (h : g.order_id ≠ keyOf r) : updGroup sch r g = g := by
  simp [updGroup, h]

theorem updGroup_of_eq (sch : Schema) (r : StoredRow) (g : OrderGroup)
    (h : g.order_id = keyOf r) :
    updGroup sch r g =
      { g with total := g.total + itemTotal r,
               items := g.items ++ [mkItemG sch r] } := by
  simp [updGroup, h]

theorem groupsSpec_addRow (sch : Schema) (processed : List StoredRow)
    (gs : List OrderGroup) (r : StoredRow)
    (h : GroupsSpec sch processed gs) :
    GroupsSpec sch (processed ++ [r]) (addRow sch gs r) := by
  rw [addRow_eq]
  by_cases hmem : ∃ g ∈ gs, g.order_id = keyOf r
  · have hany : (gs.any fun g => g.order_id == keyOf r) = true := by
      rcases hmem with ⟨g0, hg0, hk0⟩
      exact List.any_eq_true.2 ⟨g0, hg0, by simp [hk0]⟩
    rw [if_pos hany]
    refine ⟨?_, ?_, ?_, ?_⟩
    · exact h.nodupKeys.map _ (fun a b hab => by
        rw [updGroup_key, updGroup_key]; exact hab)
    · intro g' hg'
      rcases List.mem_map.1 hg' with ⟨g, hg, rfl⟩
      by_cases hk : g.order_id = keyOf r
      · rw [updGroup_of_eq sch r g hk]
        dsimp only
        rw [hk, groupRows_append_self, List.map_append, h.items_eq g hg, hk]
        simp
      · rw [updGroup_of_ne sch r g hk]
        rw [groupRows_append_ne _ _ _ (fun e => hk e.symm)]
        exact h.items_eq g hg
    · intro g' hg'
      rcases List.mem_map.1 hg' with ⟨g, hg, rfl⟩
      by_cases hk : g.order_id = keyOf r
      · rw [updGroup_of_eq sch r g hk]
        dsimp only
        rw [hk, groupRows_append_self, List.map_append, List.sum_append,
          h.total_eq g hg, hk]
        simp
      · rw [updGroup_of_ne sch r g hk]
        rw [groupRows_append_ne _ _ _ (fun e => hk e.symm)]
        exact h.total_eq g hg
    · intro r' hr'
      rcases List.mem_append.1 hr' with hr' | hr'
      · rcases h.covered r' hr' with ⟨g, hg, hgk⟩
        exact ⟨updGroup sch r g, List.mem_map_of_mem _ hg,
          by rw [updGroup_key]; exact hgk⟩
      · have hr : r' = r := by simpa using hr'
        rcases hmem with ⟨g0, hg0, hk0⟩
        exact ⟨updGroup sch r g0, List.mem_map_of_mem _ hg0,
          by rw [updGroup_key, hk0, hr]⟩
  · push_neg at hmem
    have hany : (gs.any fun g => g.order_id == keyOf r) = false := by
      rw [List.any_eq_false]
      intro g hg; simp [hmem g hg]
    simp only [hany, Bool.false_eq_true, if_false]
    rw [List.map_append]
    have hmapid : gs.map (updGroup sch r) = gs := by
      conv_rhs => rw [← List.map_id gs]
      exact List.map_congr_left (fun g hg => updGroup_of_ne sch r g (hmem g hg))
    have hnew : updGroup sch r (newGroup r) =
        { order_id := keyOf r, date := r.order_date, status := r.status,
          items := [mkItemG sch r], total := itemTotal r } := by
      rw [updGroup_of_eq sch r _ rfl]
      simp [newGroup]
    have hpnone : groupRows (keyOf r) processed = [] := by
      simp only [groupRows]
      rw [List.filter_eq_nil_iff]
      intro r' hr' hmatch
      have hk : keyOf r' = keyOf r := by simpa using hmatch
      rcases h.covered r' hr' with ⟨g, hg, hgk⟩
      exact hmem g hg (hgk.trans hk)
    rw [hmapid, List.map_singleton, hnew]
    refine ⟨?_, ?_, ?_, ?_⟩
    · rw [List.pairwise_append]
      refine ⟨h.nodupKeys, List.pairwise_singleton _ _, ?_⟩
      intro a ha b hb
      have hb' : b = _ := List.mem_singleton.1 hb
      subst hb'
      exact hmem a ha
    · intro g' hg'
      rcases List.mem_append.1 hg' with hg' | hg'
      · rw [groupRows_append_ne _ _ _ (fun e => hmem g' hg' e.symm)]
        exact h.items_eq g' hg'
      · have hg : g' = _ := List.mem_singleton.1 hg'
        subst hg
        show [mkItemG sch r] =
          (groupRows (keyOf r) (processed ++ [r])).map (mkItemG sch)
        rw [groupRows_append_self, hpnone]
        simp
    · intro g' hg'
      rcases List.mem_append.1 hg' with hg' | hg'
      · rw [groupRows_append_ne _ _ _ (fun e => hmem g' hg' e.symm)]
        exact h.total_eq g' hg'
      · have hg : g' = _ := List.mem_singleton.1 hg'
        subst hg
        show itemTotal r =
          ((groupRows (keyOf r) (processed ++ [r])).map itemTotal).sum
        rw [groupRows_append_self, hpnone]
        simp
    · intro r' hr'
      rcases List.mem_append.1 hr' with hr' | hr'
      · rcases h.covered r' hr' with ⟨g, hg, hgk⟩
        exact ⟨g, List.mem_append_left _ hg, hgk⟩
      · have hr : r' = r := by simpa using hr'
        refine ⟨_, List.mem_append_right _ (List.mem_singleton_self _), ?_⟩
        rw [hr]

theorem groupsSpec_foldl (sch : Schema) :
    ∀ (rows processed : List StoredRow) (gs : List OrderGroup),
      GroupsSpec sch processed gs →
      GroupsSpec sch (processed ++ rows) (rows.foldl (addRow sch) gs)
  | [], processed, gs, h => by simpa using h
  | r :: rs, processed, gs, h => by
    have h1 := groupsSpec_addRow sch processed gs r h
    have h2 := groupsSpec_foldl sch rs (processed ++ [r]) (addRow sch gs r) h1
    simpa [List.append_assoc] using h2

/-- The grouped branch satisfies the loop invariant for the full row
list: distinct group keys, and per group exactly the matching rows'
items and total. -/
theorem groupsSpec_aggregateGrouped (sch : Schema) (rows : List StoredRow) :
    GroupsSpec sch rows (aggregateGrouped sch rows) := by
  have h0 : GroupsSpec sch [] ([] : List OrderGroup) := by
    refine ⟨List.Pairwise.nil, ?_, ?_, ?_⟩ <;> simp
  simpa using groupsSpec_foldl sch rows [] [] h0

theorem mem_insertOrdered (le : StoredRow → StoredRow → Bool)
    (r a : StoredRow) :
    ∀ l : List StoredRow, a ∈ insertOrdered le r l ↔ a = r ∨ a ∈ l
  | [] => by simp [insertOrdered]
  | x :: xs => by
    by_cases h : le r x
    · simp [insertOrdered, h]
    · simp only [insertOrdered, h, Bool.false_eq_true, if_false,
        List.mem_cons, mem_insertOrdered le r a xs]
      tauto

theorem mem_sortRows (a : StoredRow) :
    ∀ rows : List StoredRow, a ∈ sortRows rows ↔ a ∈ rows
  | [] => by simp [sortRows]
  | x :: xs => by
    have hx : sortRows (x :: xs) = insertOrdered dateDescBefore x (sortRows xs) := rfl
    rw [hx, mem_insertOrdered]
    simp [mem_sortRows a xs]

theorem mem_fetchedRows (a : StoredRow) (username : String)
    (store : List StoredRow) :
    a ∈ fetchedRows username store ↔ a ∈ store ∧ a.username = username := by
  rw [fetchedRows, mem_sortRows]
  simp [List.mem_filter]

theorem get_orders_grouped (sch : Schema) (hsch : sch.order_id = true)
    (username : String) (store : List StoredRow) :
    get_orders sch username store =
      aggregateGrouped sch (fetchedRows username store) := by
  simp [get_orders, hsch, fetchedRows]

theorem get_orders_ungrouped (sch : Schema) (hsch : sch.order_id = false)
    (username : String) (store : List StoredRow) :
    get_orders sch username store =
      (fetchedRows username store).map (singleOrder sch) := by
  simp [get_orders, hsch, fetchedRows]

/-- C1, as stated, is false: the design write handlers never compute a
price from dimensions.  For the concrete create request `cexAdd7`
(width 3, height 4 supplied, client price 7) the stored price is the
client-supplied 7, which is not `3 * 4 * 10`; and changing only the
client price field changes the stored price, so the client price is not
ignored. -/
theorem C1_cex :
    ((add_design cexAdd7 [] 1).2.map (fun r => r.price) = [7])
    ∧ ((7 : ℚ) ≠ 3 * 4 * 10)
    ∧ ((add_design { cexAdd7 with price := some 9 } [] 1).2.map
        (fun r => r.price) = [9]) := by
  refine ⟨?_, by norm_num, ?_⟩
  · simp [add_design, cexAdd7, pyFalsyStr, pyFalsyNum]
  · simp [add_design, cexAdd7, pyFalsyStr, pyFalsyNum]

/-- C1 amended: every design write (create via `add_design`, update via
`save_design`) stores the client-supplied `price` verbatim, and the
result of either handler is unchanged under arbitrary `width`/`height`
request fields — no dimension-based price exists. -/
theorem C1_amended (req : AddDesignReq) (sreq : SaveDesignReq)
    (store sstore : List DesignRow) (newId sid : ℕ) (p q : ℚ) (i : ℕ)
    (w h w' h' : Option ℤ)
    (hn : pyFalsyStr req.name = false) (hp : req.price = some p)
    (hp0 : p ≠ 0) (hi : req.images ≠ [])
    (hsn : pyFalsyStr sreq.name = false) (hsp : sreq.price = some q)
    (hq0 : q ≠ 0) (hsd : pyFalsyStr sreq.description = false)
    (hid : sreq.id = some i) (hi0 : i ≠ 0) :
    ((add_design req store newId).2.map (fun r => r.price) =
      store.map (fun r => r.price) ++ [p])
    ∧ (add_design { req with width := w, height := h } store newId =
        add_design req store newId)
    ∧ ((save_design sreq sstore sid).2.map (fun r => r.price) =
        sstore.map (fun r => if r.id = i then q else r.price))
    ∧ (save_design { sreq with width := w', height := h' } sstore sid =
        save_design sreq sstore sid) := by
  have hpf : pyFalsyNum req.price = false := by simp [hp, pyFalsyNum, hp0]
  have hqf : pyFalsyNum sreq.price = false := by simp [hsp, pyFalsyNum, hq0]
  refine ⟨?_, rfl, ?_, rfl⟩
  · simp [add_design, hn, hpf, hi, hp, pyFalsyNum, hp0]
  · simp only [save_design, hsn, hqf, hsd, Bool.false_eq_true, Bool.or_self,
      Bool.or_false, Bool.false_or, if_false, hid, hi0, if_true, ite_not]
    rw [List.map_map]
    refine List.map_congr_left (fun r _ => ?_)
    by_cases hr : r.id = i
    · simp only [hr, if_true, Function.comp_apply, if_pos]
      split <;> simp [hsp]
    · simp [hr]

/-- Witness for the C1 amendment at concrete inputs. -/
theorem C1_witness :
    ((add_design cexAdd7 [] 1).2.map (fun r => r.price) =
      ([] : List DesignRow).map (fun r => r.price) ++ [(7 : ℚ)])
    ∧ (add_design { cexAdd7 with width := some 8, height := some 9 } [] 1 =
        add_design cexAdd7 [] 1)
    ∧ ((save_design cexSaveUpd [cexRow5] 9).2.map (fun r => r.price) =
        [cexRow5].map (fun r => if r.id = 5 then (42 : ℚ) else r.price))
    ∧ (save_design { cexSaveUpd with width := some 1, height := some 2 }
        [cexRow5] 9 = save_design cexSaveUpd [cexRow5] 9) :=
  C1_amended cexAdd7 cexSaveUpd [] [cexRow5] 1 9 7 42 5
    (some 8) (some 9) (some 1) (some 2)
    (by simp [cexAdd7, pyFalsyStr]) (by simp [cexAdd7]) (by norm_num)
    (by simp [cexAdd7]) (by simp [cexSaveUpd, pyFalsyStr])
    (by simp [cexSaveUpd]) (by norm_num)
    (by simp [cexSaveUpd, pyFalsyStr]) (by simp [cexSaveUpd]) (by norm_num)

/-- C8, as stated, is false: a create-design request whose `width` is 0
and whose `height` is negative, but whose `name`/`price`/`images` are
valid, is accepted (HTTP 200, success) and a catalog row is persisted —
the handler performs no dimension validation at all. -/
theorem C8_cex :
    (add_design cexAdd0 [] 1).1.success = true
    ∧ (add_design cexAdd0 [] 1).1.status = 200
    ∧ (add_design cexAdd0 [] 1).2.length = 1 := by
  refine ⟨?_, ?_, ?_⟩ <;>
    simp [add_design, cexAdd0, pyFalsyStr, pyFalsyNum]

/-- C8 amended: the only create-design validation is Python truthiness
of `name` and `price` (and of `description` for `save_design`), plus a
non-empty image list for `add_design`; each failure is a 400 with
nothing persisted, and the `width`/`height` request fields never
influence the outcome. -/
theorem C8_amended (req : AddDesignReq) (sreq : SaveDesignReq)
    (store sstore : List DesignRow) (newId sid : ℕ) (w h : Option ℤ) :
    ((pyFalsyStr req.name = true ∨ pyFalsyNum req.price = true) →
      (add_design req store newId).1.status = 400
      ∧ (add_design req store newId).1.success = false
      ∧ (add_design req store newId).2 = store)
    ∧ (req.images = [] →
      (add_design req store newId).1.status = 400
      ∧ (add_design req store newId).1.success = false
      ∧ (add_design req store newId).2 = store)
    ∧ ((pyFalsyStr sreq.name = true ∨ pyFalsyNum sreq.price = true
        ∨ pyFalsyStr sreq.description = true) →
      (save_design sreq sstore sid).1.status = 400
      ∧ (save_design sreq sstore sid).1.success = false
      ∧ (save_design sreq sstore sid).2 = sstore)
    ∧ (add_design { req with width := w, height := h } store newId =
        add_design req store newId) := by
  refine ⟨?_, ?_, ?_, rfl⟩
  · intro hfail
    rcases hfail with hf | hf <;> simp [add_design, hf]
  · intro himg
    by_cases hf : pyFalsyStr req.name || pyFalsyNum req.price
    · simp [add_design, hf]
    · simp [add_design, hf, himg]
  · intro hfail
    rcases hfail with hf | hf | hf <;> simp [save_design, hf]

/-- Witness for the C8 amendment: an empty name, an empty image list,
and a falsy description are each rejected at a concrete input without
persistence, and supplied width/height fields leave the outcome
unchanged. -/
theorem C8_witness :
    ((add_design { cexAdd7 with name := some "" } [] 1).1.status = 400
      ∧ (add_design { cexAdd7 with name := some "" } [] 1).1.success = false
      ∧ (add_design { cexAdd7 with name := some "" } [] 1).2 = [])
    ∧ ((add_design { cexAdd7 with images := [] } [] 1).1.status = 400
      ∧ (add_design { cexAdd7 with images := [] } [] 1).1.success = false
      ∧ (add_design { cexAdd7 with images := [] } [] 1).2 = [])
    ∧ ((save_design { cexSaveUpd with description := some "" } [cexRow5] 9).1.status = 400
      ∧ (save_design { cexSaveUpd with description := some "" } [cexRow5] 9).1.success = false
      ∧ (save_design { cexSaveUpd with description := some "" } [cexRow5] 9).2 = [cexRow5])
    ∧ (add_design
        { { cexAdd7 with name := some "" } with width := some 0, height := some 0 }
        [] 1 =
        add_design { cexAdd7 with name := some "" } [] 1) :=
  ⟨(C8_amended { cexAdd7 with name := some "" } cexSaveUpd [] [] 1 9
      none none).1 (Or.inl (by simp [cexAdd7, pyFalsyStr])),
   (C8_amended { cexAdd7 with images := [] } cexSaveUpd [] [] 1 9
      none none).2.1 rfl,
   (C8_amended cexAdd7 { cexSaveUpd with description := some "" } []
      [cexRow5] 1 9 none none).2.2.1
      (Or.inr (Or.inr (by simp [cexSaveUpd, pyFalsyStr]))),
   (C8_amended { cexAdd7 with name := some "" } cexSaveUpd [] [] 1 9
      (some 0) (some 0)).2.2.2⟩

/-- C9 confirmed: on a design update, supplying an image replaces the
stored `image_data`/`image_type` and supplying none leaves both stored
image columns untouched while the other supplied fields are updated.
Stated for `update_design` (replacement guard: non-empty `images`) and
for `save_design`'s update branch (replacement guard: first image with
truthy data and type); `reqE`/`sreqE` are requests without an image,
`reqI`/`sreqI` requests with one. -/
theorem C9_image (did i : ℕ) (reqE reqI : UpdateDesignReq)
    (store sstore : List DesignRow) (sreqE sreqI : SaveDesignReq)
    (sid : ℕ) (img simg : ImageReq) (restI srest : List ImageReq)
    (qE qI : ℚ)
    (hex : (store.all fun r => r.id ≠ did) = false)
    (hE : reqE.images = [])
    (hI : reqI.images = img :: restI)
    (hsnE : pyFalsyStr sreqE.name = false) (hspE : sreqE.price = some qE)
    (hqE : qE ≠ 0) (hsdE : pyFalsyStr sreqE.description = false)
    (hidE : sreqE.id = some i) (hi0 : i ≠ 0)
    (hsE : sreqE.images = [])
    (hsnI : pyFalsyStr sreqI.name = false) (hspI : sreqI.price = some qI)
    (hqI : qI ≠ 0) (hsdI : pyFalsyStr sreqI.description = false)
    (hidI : sreqI.id = some i)
    (hsI : sreqI.images = simg :: srest)
    (hdataI : pyFalsyStr simg.image_data = false)
    (htypeI : pyFalsyStr simg.image_type = false) :
    ((update_design did reqE store).2 = store.map (fun r =>
      if r.id = did then
        { r with
          name := reqE.name.getD r.name
          price := reqE.price.getD r.price
          tags := reqE.tags.getD r.tags
          description := reqE.description.getD r.description }
      else r))
    ∧ ((update_design did reqI store).2 = store.map (fun r =>
      if r.id = did then
        { r with
          name := reqI.name.getD r.name
          price := reqI.price.getD r.price
          tags := reqI.tags.getD r.tags
          description := reqI.description.getD r.description
          image_data := img.image_data
          image_type := img.image_type }
      else r))
    ∧ ((save_design sreqE sstore sid).2 = sstore.map (fun r =>
      if r.id = i then
        { r with
          name := sreqE.name.getD ""
          price := qE
          tags := sreqE.tags.getD ""
          description := sreqE.description.getD "" }
      else r))
    ∧ ((save_design sreqI sstore sid).2 = sstore.map (fun r =>
      if r.id = i then
        { r with
          name := sreqI.name.getD ""
          price := qI
          tags := sreqI.tags.getD ""
          description := sreqI.description.getD ""
          image_data := simg.image_data
          image_type := simg.image_type }
      else r)) := by
  have hqfE : pyFalsyNum sreqE.price = false := by simp [hspE, pyFalsyNum, hqE]
  have hqfI : pyFalsyNum sreqI.price = false := by simp [hspI, pyFalsyNum, hqI]
  refine ⟨?_, ?_, ?_, ?_⟩
  · simp only [update_design, hex, Bool.false_eq_true, if_false]
    refine List.map_congr_left (fun r _ => ?_)
    by_cases hr : r.id = did
    · simp [hr, applyDesignUpdate, hE]
    · simp [hr]
  · simp only [update_design, hex, Bool.false_eq_true, if_false]
    refine List.map_congr_left (fun r _ => ?_)
    by_cases hr : r.id = did
    · simp [hr, applyDesignUpdate, hI]
    · simp [hr]
  · simp only [save_design, hsnE, hqfE, hsdE, Bool.false_eq_true,
      Bool.or_self, Bool.or_false, Bool.false_or, if_false, hidE, hi0,
      if_true, ite_not, hsE, firstImageData]
    refine List.map_congr_left (fun r _ => ?_)
    by_cases hr : r.id = i
    · simp [hr, pyFalsyStr, hspE]
    · simp [hr]
  · simp only [save_design, hsnI, hqfI, hsdI, Bool.false_eq_true,
      Bool.or_self, Bool.or_false, Bool.false_or, if_false, hidI, hi0,
      if_true, ite_not, hsI, firstImageData]
    refine List.map_congr_left (fun r _ => ?_)
    by_cases hr : r.id = i
    · simp [hr, hdataI, htypeI, hspI]
    · simp [hr]

/-- Witness for C9 at concrete inputs. -/
theorem C9_witness :
    ((update_design 5 cexUpdE [cexRow5]).2 = [cexRow5].map (fun r =>
      if r.id = 5 then
        { r with
          name := cexUpdE.name.getD r.name
          price := cexUpdE.price.getD r.price
          tags := cexUpdE.tags.getD r.tags
          description := cexUpdE.description.getD r.description }
      else r))
    ∧ ((update_design 5 cexUpdI [cexRow5]).2 = [cexRow5].map (fun r =>
      if r.id = 5 then
        { r with
          name := cexUpdI.name.getD r.name
          price := cexUpdI.price.getD r.price
          tags := cexUpdI.tags.getD r.tags
          description := cexUpdI.description.getD r.description
          image_data := cexImage.image_data
          image_type := cexImage.image_type }
      else r))
    ∧ ((save_design cexSaveUpd [cexRow5] 9).2 = [cexRow5].map (fun r =>
      if r.id = 5 then
        { r with
          name := cexSaveUpd.name.getD ""
          price := (42 : ℚ)
          tags := cexSaveUpd.tags.getD ""
          description := cexSaveUpd.description.getD "" }
      else r))
    ∧ ((save_design cexSaveUpdI [cexRow5] 9).2 = [cexRow5].map (fun r =>
      if r.id = 5 then
        { r with
          name := cexSaveUpdI.name.getD ""
          price := (42 : ℚ)
          tags := cexSaveUpdI.tags.getD ""
          description := cexSaveUpdI.description.getD ""
          image_data := cexImage.image_data
          image_type := cexImage.image_type }
      else r)) :=
  C9_image 5 5 cexUpdE cexUpdI [cexRow5] [cexRow5] cexSaveUpd cexSaveUpdI 9
    cexImage cexImage [] [] 42 42
    (by simp [cexRow5]) rfl rfl
    (by simp [cexSaveUpd, pyFalsyStr]) (by simp [cexSaveUpd]) (by norm_num)
    (by simp [cexSaveUpd, pyFalsyStr]) (by simp [cexSaveUpd]) (by norm_num)
    rfl
    (by simp [cexSaveUpdI, cexSaveUpd, pyFalsyStr])
    (by simp [cexSaveUpdI, cexSaveUpd]) (by norm_num)
    (by simp [cexSaveUpdI, cexSaveUpd, pyFalsyStr])
    (by simp [cexSaveUpdI, cexSaveUpd])
    rfl
    (by simp [cexImage, pyFalsyStr]) (by simp [cexImage, pyFalsyStr])

/-- Every row produced by `processItem` carries the generated order id,
the shared timestamp, the username, and status `"Pending"`. -/
theorem processItem_stamps (oid u odate : String) (item : ReqItem)
    (r : OrderRow) (h : processItem oid u odate item = some r) :
    r.order_id = oid ∧ r.username = u ∧ r.order_date = odate
    ∧ r.status = "Pending" := by
  unfold processItem at h
  cases hp : pyFloat (item.price.getD (.num 0)) with
  | none => rw [hp] at h; simp at h
  | some p =>
    rw [hp] at h
    cases hq : pyInt (item.quantity.getD (.num 1)) with
    | none => rw [hq] at h; simp at h
    | some q =>
      rw [hq] at h
      cases hw : pyInt (item.design_width.getD (.num 0)) with
      | none => rw [hw] at h; simp at h
      | some w =>
        rw [hw] at h
        cases hh : pyInt (item.design_height.getD (.num 0)) with
        | none => rw [hh] at h; simp at h
        | some ht =>
          rw [hh] at h
          simp only [Option.bind_eq_bind, Option.some_bind,
            Option.pure_def, Option.some.injEq] at h
          subst h
          exact ⟨rfl, rfl, rfl, rfl⟩

/-- C7 confirmed: when the username is absent (or empty — Python
truthiness) or the item list is empty, `save_order` responds with
status 400, `success = false`, a non-empty message, and stores
nothing. -/
theorem C7_validation (req : OrderReq) (oid odate : String)
    (store : List OrderRow)
    (h : pyFalsyStr req.username = true ∨ req.items = []) :
    (save_order req oid odate store).1.status = 400
    ∧ (save_order req oid odate store).1.success = false
    ∧ (save_order req oid odate store).1.message ≠ ""
    ∧ (save_order req oid odate store).2 = store := by
  rcases h with h | h
  · simp [save_order, h]
  · by_cases hu : pyFalsyStr req.username
    · simp [save_order, hu]
    · simp [save_order, hu, h]

/-- Witness for C7 at a concrete input. -/
theorem C7_witness :
    (save_order cexReqNoUser "ORD1" "2024-01-01 10:00:00" []).1.status = 400
    ∧ (save_order cexReqNoUser "ORD1" "2024-01-01 10:00:00" []).1.success = false
    ∧ (save_order cexReqNoUser "ORD1" "2024-01-01 10:00:00" []).1.message ≠ ""
    ∧ (save_order cexReqNoUser "ORD1" "2024-01-01 10:00:00" []).2 = [] :=
  C7_validation cexReqNoUser "ORD1" "2024-01-01 10:00:00" []
    (Or.inl (by simp [cexReqNoUser, pyFalsyStr]))

/-- C10 confirmed: whenever at least one item of a `save_order` call
converts successfully (and the username is truthy), the response is
`success = true` with the generated order id — even if other items of
the same call failed — and exactly the convertible items' rows are
appended to the store; failed items are silently absent. -/
theorem C10_partial (req : OrderReq) (oid odate : String)
    (store : List OrderRow) (u : String) (item : ReqItem) (row : OrderRow)
    (hu : req.username = some u) (hune : u ≠ "")
    (hitem : item ∈ req.items)
    (hrow : processItem oid u odate item = some row) :
    (save_order req oid odate store).1.success = true
    ∧ (save_order req oid odate store).1.order_id = some oid
    ∧ (save_order req oid odate store).2 =
        store ++ req.items.filterMap (processItem oid u odate) := by
  have hne : req.items ≠ [] := List.ne_nil_of_mem hitem
  have hfalsy : pyFalsyStr req.username = false := by
    simp [hu, pyFalsyStr, hune]
  have hmem : row ∈ req.items.filterMap (processItem oid u odate) :=
    List.mem_filterMap.2 ⟨item, hitem, hrow⟩
  have hlen : 0 < (req.items.filterMap (processItem oid u odate)).length :=
    List.length_pos.2 (List.ne_nil_of_mem hmem)
  simp [save_order, hfalsy, hne, hu, hlen, pyFalsyStr, hune]

/-- Witness for C10 at a concrete input: the mixed two-item request
succeeds and stores only the convertible item's row. -/
theorem C10_witness :
    (save_order cexReqMixed "ORD1" "2024-01-01 10:00:00" []).1.success = true
    ∧ (save_order cexReqMixed "ORD1" "2024-01-01 10:00:00" []).1.order_id =
        some "ORD1"
    ∧ (save_order cexReqMixed "ORD1" "2024-01-01 10:00:00" []).2 =
        [] ++ cexReqMixed.items.filterMap
          (processItem "ORD1" "alice" "2024-01-01 10:00:00") :=
  C10_partial cexReqMixed "ORD1" "2024-01-01 10:00:00" [] "alice"
    cexItemGood cexRowGood rfl (by simp)
    (by simp [cexReqMixed])
    (by simp [processItem, cexItemGood, pyFloat, pyInt, cexRowGood])

/-- C5, as stated, is false: a successful `save_order` call stamps its
stored lines with status `"Pending"`, not `"Ordered"` (and the `orders`
table it inserts into has no subtotal/tax/total columns at all). -/
theorem C5_cex :
    ((save_order cexReqGood "ORD1" "2024-01-01 10:00:00" []).2.map
      (fun r => r.status) = ["Pending"])
    ∧ "Pending" ≠ "Ordered" := by
  constructor
  · simp [save_order, cexReqGood, pyFalsyStr, cexItemGood, processItem,
      pyFloat, pyInt]
  · simp

/-- Handler `save_order` either leaves the store unchanged or appends exactly
the convertible items' rows. -/
theorem save_order_result (req : OrderReq) (oid odate : String)
    (store : List OrderRow) :
    (save_order req oid odate store).2 = store
    ∨ (save_order req oid odate store).2 =
        store ++ req.items.filterMap
          (processItem oid (req.username.getD "") odate) := by
  unfold save_order
  by_cases h1 : pyFalsyStr req.username
  · simp [h1]
  · by_cases h2 : req.items = []
    · simp [h1, h2]
    · simp only [h1, h2, Bool.false_eq_true, if_false]
      split
      · right; rfl
      · left; rfl

/-- C5 amended: every `save_order` call stamps all the lines it stores
with the one generated order identifier, the one call timestamp, and
status `"Pending"`; the caller-supplied `subtotal`/`tax`/`total` fields
are never read (the result is invariant under them and no stored column
holds them); consequently, when the generated identifier is fresh, all
stored lines sharing it share the same timestamp and status. -/
theorem C5_amended (req : OrderReq) (oid odate : String)
    (store : List OrderRow) (s t tt : Option ℚ)
    (hfresh : ∀ r ∈ store, r.order_id ≠ oid) :
    (∃ newRows, (save_order req oid odate store).2 = store ++ newRows
      ∧ ∀ r ∈ newRows,
          r.order_id = oid ∧ r.order_date = odate ∧ r.status = "Pending")
    ∧ (save_order { req with subtotal := s, tax := t, total := tt }
        oid odate store = save_order req oid odate store)
    ∧ (∀ r1 ∈ (save_order req oid odate store).2,
       ∀ r2 ∈ (save_order req oid odate store).2,
        r1.order_id = oid → r2.order_id = oid →
        r1.order_date = r2.order_date ∧ r1.status = r2.status) := by
  have hpart1 : ∃ newRows,
      (save_order req oid odate store).2 = store ++ newRows
      ∧ ∀ r ∈ newRows,
          r.order_id = oid ∧ r.order_date = odate ∧ r.status = "Pending" := by
    rcases save_order_result req oid odate store with h | h
    · exact ⟨[], by rw [h, List.append_nil], by simp⟩
    · refine ⟨_, h, ?_⟩
      intro r hr
      rcases List.mem_filterMap.1 hr with ⟨it, _, hit⟩
      have hs := processItem_stamps _ _ _ _ _ hit
      exact ⟨hs.1, hs.2.2.1, hs.2.2.2⟩
  refine ⟨hpart1, rfl, ?_⟩
  intro r1 hr1 r2 hr2 ho1 ho2
  obtain ⟨newRows, hres, hstamp⟩ := hpart1
  rw [hres] at hr1 hr2
  rcases List.mem_append.1 hr1 with hm1 | hm1
  · exact absurd ho1 (hfresh r1 hm1)
  · rcases List.mem_append.1 hr2 with hm2 | hm2
    · exact absurd ho2 (hfresh r2 hm2)
    · have s1 := hstamp r1 hm1
      have s2 := hstamp r2 hm2
      exact ⟨s1.2.1.trans s2.2.1.symm, s1.2.2.trans s2.2.2.symm⟩

/-- Witness for the C5 amendment at a concrete input. -/
theorem C5_witness :
    (∃ newRows,
      (save_order cexReqGood "ORD1" "2024-01-01 10:00:00" []).2 =
        [] ++ newRows
      ∧ ∀ r ∈ newRows,
          r.order_id = "ORD1" ∧ r.order_date = "2024-01-01 10:00:00"
          ∧ r.status = "Pending")
    ∧ (save_order
        { cexReqGood with subtotal := none, tax := none, total := none }
        "ORD1" "2024-01-01 10:00:00" [] =
        save_order cexReqGood "ORD1" "2024-01-01 10:00:00" [])
    ∧ (∀ r1 ∈ (save_order cexReqGood "ORD1" "2024-01-01 10:00:00" []).2,
       ∀ r2 ∈ (save_order cexReqGood "ORD1" "2024-01-01 10:00:00" []).2,
        r1.order_id = "ORD1" → r2.order_id = "ORD1" →
        r1.order_date = r2.order_date ∧ r1.status = r2.status) :=
  C5_amended cexReqGood "ORD1" "2024-01-01 10:00:00" [] none none none
    (by simp)

/-- Groups with equal keys in a pairwise-key-distinct list are equal. -/
theorem eq_of_pairwise_keys {gs : List OrderGroup}
    (hp : gs.Pairwise (fun a b => a.order_id ≠ b.order_id))
    {g g' : OrderGroup} (hg : g ∈ gs) (hg' : g' ∈ gs)
    (hk : g.order_id = g'.order_id) : g = g' := by
  induction gs with
  | nil => cases hg
  | cons x xs ih =>
    rcases List.mem_cons.1 hg with rfl | hgm <;>
      rcases List.mem_cons.1 hg' with rfl | hgm'
    · rfl
    · exact absurd hk ((List.pairwise_cons.1 hp).1 _ hgm')
    · exact absurd hk.symm ((List.pairwise_cons.1 hp).1 _ hgm)
    · exact ih (List.pairwise_cons.1 hp).2 hgm hgm'

/-- C2, as stated, is false: `get_orders` emits no `subtotal` field at
all, and its only monetary aggregate, `total`, is the raw sum of
price×quantity with no two-decimal rounding.  For a group whose sum is
1/8, the emitted value is 1/8, not `round(1/8, 2)`. -/
theorem C2_cex :
    ((get_orders schAll "alice" [rowEighth]).map (fun g => g.total) =
      [1/8])
    ∧ (1 : ℚ)/8 ≠ round2 (1/8 * 1) := by
  constructor
  · simp [get_orders, schAll, aggregateGrouped, addRow, sortRows,
      insertOrdered, itemTotal, pyOrQ, pyOrZ, rowEighth, rowLogo]
  · rw [round2]
    norm_num [round_eq]

/-- C2 amended: for every group emitted by `get_orders` (grouped
branch), the emitted `total` — the only monetary aggregate, there is no
separate subtotal — equals the unrounded sum of price×quantity over the
group's items, recomputed at read time (no snapshot column exists to be
trusted). -/
theorem C2_amended (sch : Schema) (hsch : sch.order_id = true)
    (u : String) (store : List StoredRow) (g : OrderGroup)
    (hg : g ∈ get_orders sch u store) :
    g.total = (g.items.map (fun i => i.price * (i.quantity : ℚ))).sum := by
  rw [get_orders_grouped sch hsch] at hg
  have spec := groupsSpec_aggregateGrouped sch (fetchedRows u store)
  rw [spec.total_eq g hg, spec.items_eq g hg, List.map_map]
  exact congrArg List.sum (List.map_congr_left (fun r _ => rfl))

/-- Witness for the C2 amendment at a concrete store. -/
theorem C2_witness :
    ∃ g, g ∈ get_orders schAll "alice" [rowLogo]
      ∧ g.total = (g.items.map (fun i => i.price * (i.quantity : ℚ))).sum := by
  have hne : get_orders schAll "alice" [rowLogo] ≠ [] := by
    simp [get_orders, schAll, aggregateGrouped, addRow, sortRows,
      insertOrdered, rowLogo]
  obtain ⟨g, hg⟩ := List.exists_mem_of_ne_nil _ hne
  exact ⟨g, hg, C2_amended schAll rfl "alice" [rowLogo] g hg⟩

/-- C3, as stated, is false: `get_orders` computes no tax at all (there
is no tax snapshot column and no 18% fallback).  For a group with
subtotal 100 the claim predicts an emitted total of
`round(100 + round(100*0.18, 2), 2) = 118`, but the handler emits
100 — the bare sum, with no tax ever added and no tax field emitted. -/
theorem C3_cex :
    ((get_orders schAll "alice" [rowHundred]).map (fun g => g.total) =
      [100])
    ∧ (100 : ℚ) ≠ round2 (100 + round2 (100 * (18/100))) := by
  constructor
  · simp [get_orders, schAll, aggregateGrouped, addRow, sortRows,
      insertOrdered, itemTotal, pyOrQ, pyOrZ, rowHundred, rowLogo]
  · rw [round2, round2]
    norm_num [round_eq]

/-- C3 amended: every emitted group's `total` is exactly the recomputed
sum of `(price or 0) × (quantity or 1)` over the group's stored lines —
no persisted tax or total snapshot exists or is consulted, and no
tax-rate derivation is applied. -/
theorem C3_amended (sch : Schema) (hsch : sch.order_id = true)
    (u : String) (store : List StoredRow) (g : OrderGroup)
    (hg : g ∈ get_orders sch u store) :
    g.total = ((groupRows g.order_id (fetchedRows u store)).map
      (fun r => pyOrQ r.price 0 * (pyOrZ r.quantity 1 : ℚ))).sum := by
  rw [get_orders_grouped sch hsch] at hg
  have spec := groupsSpec_aggregateGrouped sch (fetchedRows u store)
  rw [spec.total_eq g hg]
  exact congrArg List.sum (List.map_congr_left (fun r _ => rfl))

/-- Witness for the C3 amendment at a concrete store. -/
theorem C3_witness :
    ∃ g, g ∈ get_orders schAll "alice" [rowHundred]
      ∧ g.total = ((groupRows g.order_id
          (fetchedRows "alice" [rowHundred])).map
          (fun r => pyOrQ r.price 0 * (pyOrZ r.quantity 1 : ℚ))).sum := by
  have hne : get_orders schAll "alice" [rowHundred] ≠ [] := by
    simp [get_orders, schAll, aggregateGrouped, addRow, sortRows,
      insertOrdered, rowHundred, rowLogo]
  obtain ⟨g, hg⟩ := List.exists_mem_of_ne_nil _ hne
  exact ⟨g, hg, C3_amended schAll rfl "alice" [rowHundred] g hg⟩

/-- C4 confirmed: in the grouped branch, `get_orders` partitions the
user's stored lines by their stored order identifier — two lines with
the same identifier land in the one group carrying that key (which is
unique in the output), and two lines with distinct identifiers land in
two distinct groups. -/
theorem C4_grouping (sch : Schema) (hsch : sch.order_id = true)
    (store : List StoredRow) (u : String) (r1 r2 : StoredRow)
    (h1 : r1 ∈ store) (h2 : r2 ∈ store)
    (hu1 : r1.username = u) (hu2 : r2.username = u) :
    (r1.order_id = r2.order_id →
      ∃ g ∈ get_orders sch u store,
        g.order_id = keyOf r1
        ∧ mkItemG sch r1 ∈ g.items ∧ mkItemG sch r2 ∈ g.items
        ∧ ∀ g' ∈ get_orders sch u store, g'.order_id = keyOf r1 → g' = g)
    ∧ (r1.order_id ≠ r2.order_id →
      ∃ g1 ∈ get_orders sch u store, ∃ g2 ∈ get_orders sch u store,
        g1 ≠ g2 ∧ mkItemG sch r1 ∈ g1.items ∧ mkItemG sch r2 ∈ g2.items) := by
  rw [get_orders_grouped sch hsch]
  have spec := groupsSpec_aggregateGrouped sch (fetchedRows u store)
  have hm1 : r1 ∈ fetchedRows u store :=
    (mem_fetchedRows r1 u store).2 ⟨h1, hu1⟩
  have hm2 : r2 ∈ fetchedRows u store :=
    (mem_fetchedRows r2 u store).2 ⟨h2, hu2⟩
  have hitem : ∀ r ∈ fetchedRows u store,
      ∀ g ∈ aggregateGrouped sch (fetchedRows u store),
      g.order_id = keyOf r → mkItemG sch r ∈ g.items := by
    intro r hr g hg hk
    rw [spec.items_eq g hg]
    refine List.mem_map_of_mem _ ?_
    rw [hk]
    simp only [groupRows]
    exact List.mem_filter.2 ⟨hr, by simp⟩
  constructor
  · intro hoid
    obtain ⟨g, hg, hk⟩ := spec.covered r1 hm1
    have hk2 : keyOf r2 = keyOf r1 := by simp [keyOf, hoid]
    exact ⟨g, hg, hk, hitem r1 hm1 g hg hk,
      hitem r2 hm2 g hg (hk.trans hk2.symm),
      fun g' hg' hk' =>
        eq_of_pairwise_keys spec.nodupKeys hg' hg (hk'.trans hk.symm)⟩
  · intro hne
    obtain ⟨g1, hg1, hk1⟩ := spec.covered r1 hm1
    obtain ⟨g2, hg2, hk2⟩ := spec.covered r2 hm2
    refine ⟨g1, hg1, g2, hg2, ?_, hitem r1 hm1 g1 hg1 hk1,
      hitem r2 hm2 g2 hg2 hk2⟩
    intro he
    apply hne
    have hkk : keyOf r1 = keyOf r2 := by rw [← hk1, he, hk2]
    simpa [keyOf] using hkk

/-- Witness for C4 at a concrete store: two lines of order "ORD1" land
in one group, and a line of "ORD2" lands in a distinct group. -/
theorem C4_witness :
    (∃ g ∈ get_orders schAll "alice" [rowLogo, rowTee],
      g.order_id = keyOf rowLogo
      ∧ mkItemG schAll rowLogo ∈ g.items ∧ mkItemG schAll rowTee ∈ g.items
      ∧ ∀ g' ∈ get_orders schAll "alice" [rowLogo, rowTee],
          g'.order_id = keyOf rowLogo → g' = g)
    ∧ (∃ g1 ∈ get_orders schAll "alice" [rowLogo, rowOther],
       ∃ g2 ∈ get_orders schAll "alice" [rowLogo, rowOther],
        g1 ≠ g2 ∧ mkItemG schAll rowLogo ∈ g1.items
        ∧ mkItemG schAll rowOther ∈ g2.items) :=
  ⟨(C4_grouping schAll rfl [rowLogo, rowTee] "alice" rowLogo rowTee
      (by simp) (by simp) rfl rfl).1 (by simp [rowTee])
  , (C4_grouping schAll rfl [rowLogo, rowOther] "alice" rowLogo rowOther
      (by simp) (by simp) rfl rfl).2 (by simp [rowOther, rowLogo])⟩

/-- C6 confirmed: when the `orders` table has no `order_id` column,
every stored line of the user is returned as its own singleton order —
no merging ever happens — keyed by an identifier derived from the
line's own row id (the handler emits the row id itself as the
`order_id` field). -/
theorem C6_singleton (sch : Schema) (hsch : sch.order_id = false)
    (store : List StoredRow) (u : String) :
    (∀ g ∈ get_orders sch u store, g.items.length = 1)
    ∧ (∀ r ∈ store, r.username = u →
        ∃ g ∈ get_orders sch u store,
          g.order_id = OrderKey.rowid r.id ∧ g.items = [mkItemU sch r]) := by
  rw [get_orders_ungrouped sch hsch]
  constructor
  · intro g hg
    rcases List.mem_map.1 hg with ⟨r, _, rfl⟩
    rfl
  · intro r hr hu
    exact ⟨singleOrder sch r,
      List.mem_map_of_mem _ ((mem_fetchedRows r u store).2 ⟨hr, hu⟩),
      rfl, rfl⟩

/-- Witness for C6 at a concrete store. -/
theorem C6_witness :
    ∃ g ∈ get_orders schNoOid "alice" [rowLogo],
      g.items.length = 1 ∧ g.order_id = OrderKey.rowid rowLogo.id
      ∧ g.items = [mkItemU schNoOid rowLogo] := by
  obtain ⟨g, hg, hk, hi⟩ :=
    (C6_singleton schNoOid rfl [rowLogo] "alice").2 rowLogo (by simp) rfl
  exact ⟨g, hg, (C6_singleton schNoOid rfl [rowLogo] "alice").1 g hg, hk, hi⟩
